import Mathlib

/-!
# Ultrasonic-sensor Rangefinder: verification of the sweep-scanner sketch

A shallow embedding of the Arduino sweep-scanner sketch
(`SensorCalibration(1).ino`, second document) and of the single-servo
calibration sketch (`servo_calibration.ino`), together with theorems settling
the specification claims about it.

Modelling conventions:
* Arduino `int` / `long` arithmetic is modelled on `Int` (the values involved
  are tiny, so no overflow occurs in the source); the clamped arguments of the
  `map` call are nonnegative, where Lean's `Int` division agrees with C's
  truncating division.
* `float` arithmetic is modelled exactly on `ℚ`; the `NAN` sentinel used by
  the sketch for a timed-out reading is modelled as `Option.none`, so
  `isfinite d && d > 0` becomes "the option holds a positive value", and a
  linear function of `NAN` (which is `NAN` in C) becomes `Option.map`.
* The hardware inputs of one pass of `loop()` (the two button levels and
  whether the 500 ms step gate `millis() - lastStepTime >= stepInterval` is
  open) are a `TickInput`; the sketch's global mutable variables are a
  `LoopState`; the pin writes and the serial line emitted during one pass are
  a `TickOutput`.
-/

namespace Rangefinder

/-! ## Constants of the sketch -/

def startAngle : Int := 30
def endAngle : Int := 150
def samplesPerAngle : Nat := 10

/-! ## Servo actuation: `usFromAngle` (identical in both sketches)

`int usFromAngle(int deg) { return map(constrain(deg, 0, 180), 0, 180, 500, 2500); }`
with Arduino's `constrain(amt, low, high)` = `amt<low ? low : (amt>high ? high : amt)`
and `map(x, in_min, in_max, out_min, out_max)` =
`(x - in_min) * (out_max - out_min) / (in_max - in_min) + out_min`. -/

def constrain (amt low high : Int) : Int :=
  if amt < low then low else if amt > high then high else amt

def arduinoMap (x in_min in_max out_min out_max : Int) : Int :=
  (x - in_min) * (out_max - out_min) / (in_max - in_min) + out_min

def usFromAngle (deg : Int) : Int :=
  arduinoMap (constrain deg 0 180) 0 180 500 2500

/-- The pulse-width formula exactly as the spec words it:
`pulseWidth(a) = round(500 + a*(2000/180))`, nearest-integer rounding. -/
def pulseWidthSpecRound (a : Int) : Int :=
  round ((500 : ℚ) + (a : ℚ) * (2000 / 180))

/-! ## Distance sensor

`float readDistanceCm()` returns `NAN` when `measureEcho()` timed out
(`echo == 0`), otherwise `echo * 0.0343f * 0.5f` (one-way distance in cm).
`float sensorCalibration(float meas_cm)` is
`(1.049396f * meas_cm - 0.673890f) / 100.0f` (calibrated distance in meters). -/

def readDistanceCm (echo : Nat) : Option ℚ :=
  if echo = 0 then none else some ((echo : ℚ) * 0.0343 * 0.5)

def sensorCalibration (meas_cm : ℚ) : ℚ :=
  (1.049396 * meas_cm - 0.673890) / 100

/-- The full per-sample measurement pipeline used by `scanAtAngle`:
`sensorCalibration(readDistanceCm())`, with `NAN` propagating through the
linear calibration. -/
def measureMeters (echo : Nat) : Option ℚ :=
  (readDistanceCm echo).map sensorCalibration

/-! ## Sample aggregation: `scanAtAngle`

`void scanAtAngle(int angle_deg, float out[11])` resets an 11-slot buffer to
0, then for `i < min(samplesPerAngle, 10)` stores
`sensorCalibration(readDistanceCm())` in slot `i`, accumulating the sum and
count of the finite, strictly positive readings, and finally writes
`cnt > 0 ? sum/cnt : NAN` to slot 10.  The i-th echo duration delivered by the
hardware is modelled as `echoes i`. -/

def scanStep (echoes : Nat → Nat) (acc : List (Option ℚ) × ℚ × Nat) (i : Nat) :
    List (Option ℚ) × ℚ × Nat :=
  let d := measureMeters (echoes i)
  let sc : ℚ × Nat :=
    match d with
    | some v => if 0 < v then (acc.2.1 + v, acc.2.2 + 1) else (acc.2.1, acc.2.2)
    | none => (acc.2.1, acc.2.2)
  (acc.1.set i d, sc.1, sc.2)

def scanAtAngle (echoes : Nat → Nat) : List (Option ℚ) :=
  let n := min samplesPerAngle 10
  let res := (List.range n).foldl (scanStep echoes) (List.replicate 11 (some 0), 0, 0)
  res.1.set 10 (if 0 < res.2.2 then some (res.2.1 / (res.2.2 : ℚ)) else none)

/-- The readings among samples `l` that are valid (finite, i.e. not the `NAN`
sentinel) and strictly positive — the ones the sketch lets contribute to the
mean. -/
def validReadings (echoes : Nat → Nat) (l : List Nat) : List ℚ :=
  ((l.map fun i => measureMeters (echoes i)).filterMap id).filter fun v => 0 < v

/-! ## Report emission: `sendAngleBlock`

`Serial.print(x, 2)` formats a float with two fractional digits: Arduino's
`Print::printFloat` prints a minus sign for a negative value, adds a rounding
term of `0.5/100`, prints the integer part, a dot, then two digits obtained by
repeated multiplication by 10 — i.e. the two-digit zero-padded fraction of
`⌊|q|*100 + 1/2⌋`.  A `NAN` value prints as "nan".

`sendAngleBlock(angle, a, currentMode)` prints `!currentMode ? 1 : 2`, a
comma, the angle, then for each of the 11 slots a comma and the slot formatted
to 2 decimals. -/

def pad2 (n : Nat) : String :=
  if n < 10 then "0" ++ toString n else toString n

def fmtFloat2 : Option ℚ → String
  | none => "nan"
  | some q =>
    let n : Nat := (⌊|q| * 100 + 1 / 2⌋).toNat
    (if q < 0 then "-" else "") ++ toString (n / 100) ++ "." ++ pad2 (n % 100)

def sendAngleBlock (angle_deg : Int) (a : List (Option ℚ)) (currentMode : Bool) :
    String :=
  a.foldl (fun acc x => acc ++ "," ++ fmtFloat2 x)
    ((if !currentMode then "1" else "2") ++ "," ++ toString angle_deg)

/-- A comma-separated line built from a list of fields, as the spec words the
report format. -/
def commaSeparated : List String → String
  | [] => ""
  | [x] => x
  | x :: y :: xs => x ++ "," ++ commaSeparated (y :: xs)

/-! ## The `loop()` state machine

The sketch's global mutable variables (`emergency_stop`, `currentMode`, the
two `WasPressed` latches) together with the `static` locals of `loop()`
(`ang`, `direction`, `repeatBoundary`, `firstCycle`) form the state.  One
pass of `loop()` reads the two button levels and the 500 ms gate
`millis() - lastStepTime >= stepInterval`; these are the `TickInput`.  The
pin levels written during the pass and the serial line, abstracted to its
`(mode_id, angle)` pair, are the `TickOutput`: in the emergency branch
`stop_all()` drives the trigger and servo pins LOW and sets the red LED; in
the running branch the LEDs show green, and when a step is due the trigger
and servo pins are pulsed by the scan, every pulse ending LOW. -/

structure LoopState where
  emergency_stop : Bool
  currentMode : Bool
  stop_WasPressed : Bool
  mode_WasPressed : Bool
  ang : Int
  direction : Int
  repeatBoundary : Bool
  firstCycle : Bool
  deriving DecidableEq

structure TickInput where
  stopBtn : Bool
  modeBtn : Bool
  stepDue : Bool

structure TickOutput where
  report : Option (Nat × Int)
  trigWrite : Option Bool
  servoWrite : Option Bool
  ledGreen : Bool
  ledRed : Bool
  deriving DecidableEq

/-- Model of `stop_checkButton()`: on a rising edge (`!stop_WasPressed && HIGH`) set
the latch and toggle `emergency_stop`; then, if the level is LOW, clear the
latch. -/
def stop_checkButton (s : LoopState) (btn : Bool) : LoopState :=
  let s1 := if !s.stop_WasPressed && btn then
      { s with stop_WasPressed := true, emergency_stop := !s.emergency_stop }
    else s
  if !btn then { s1 with stop_WasPressed := false } else s1

/-- Model of `mode_checkButton()`: the same edge detector for `currentMode`. -/
def mode_checkButton (s : LoopState) (btn : Bool) : LoopState :=
  let s1 := if !s.mode_WasPressed && btn then
      { s with mode_WasPressed := true, currentMode := !s.currentMode }
    else s
  if !btn then { s1 with mode_WasPressed := false } else s1

/-- Step size: `incrementAngle = (!currentMode ? 10 : 20)`. -/
def incrementAngle (currentMode : Bool) : Int :=
  if !currentMode then 10 else 20

/-- Advance: `ang += direction * incrementAngle;` followed by the two clamping `if`s. -/
def advanceAngle (s : LoopState) : LoopState :=
  let a0 := s.ang + s.direction * incrementAngle s.currentMode
  let a1 := if a0 < startAngle then startAngle else a0
  let a2 := if a1 > endAngle then endAngle else a1
  { s with ang := a2 }

/-- The `(mode_id, angle)` pair of the serial line emitted by
`sendAngleBlock(ang, buf, currentMode)`. -/
def reportOf (s : LoopState) : Nat × Int :=
  (if !s.currentMode then 1 else 2, s.ang)

/-- The post-emit part of a due step: the boundary handling (`firstCycle`,
`repeatBoundary`, direction reversal; the `return` that skips advancing) and
the clamped angle advance. -/
def sweepAdvance (s : LoopState) : LoopState :=
  if s.ang = startAngle ∨ s.ang = endAngle then
    if s.firstCycle then
      advanceAngle { s with firstCycle := false }
    else if !s.repeatBoundary then
      { s with repeatBoundary := true }
    else
      advanceAngle { s with repeatBoundary := false, direction := -s.direction }
  else
    advanceAngle s

/-- The intermediate state after the two poll calls that open every pass of
`loop()`: `stop_checkButton(); mode_checkButton();`. -/
def polled (s : LoopState) (i : TickInput) : LoopState :=
  mode_checkButton (stop_checkButton s i.stopBtn) i.modeBtn

/-- The state after one pass of `loop()`: poll both buttons, then either take
a sweep step (if not stopped and the step gate is open) or shut down
(`stop_all()` touches no state). -/
def tickState (s : LoopState) (i : TickInput) : LoopState :=
  if !(polled s i).emergency_stop then
    if i.stepDue then sweepAdvance (polled s i) else polled s i
  else polled s i

/-- The outputs of one pass of `loop()`. -/
def tickOut (s : LoopState) (i : TickInput) : TickOutput :=
  if !(polled s i).emergency_stop then
    if i.stepDue then
      { report := some (reportOf (polled s i)), trigWrite := some false,
        servoWrite := some false, ledGreen := true, ledRed := false }
    else
      { report := none, trigWrite := none, servoWrite := none,
        ledGreen := true, ledRed := false }
  else
    { report := none, trigWrite := some false, servoWrite := some false,
      ledGreen := false, ledRed := true }

/-- The initial state fixed by the sketch's global initializers and the
`static` initializers of `loop()`. -/
def initState : LoopState :=
  { emergency_stop := false, currentMode := false, stop_WasPressed := false,
    mode_WasPressed := false, ang := startAngle, direction := 1,
    repeatBoundary := false, firstCycle := true }

def runFrom (s : LoopState) (ins : Nat → TickInput) : Nat → LoopState
  | 0 => s
  | n + 1 => tickState (runFrom s ins n) (ins n)

def outAt (s : LoopState) (ins : Nat → TickInput) (n : Nat) : TickOutput :=
  tickOut (runFrom s ins n) (ins n)

/-- The sweep-relevant angle state `{current_angle, direction,
boundary_repeat_pending, is_first_cycle}`. -/
def angleState (s : LoopState) : Int × Int × Bool × Bool :=
  (s.ang, s.direction, s.repeatBoundary, s.firstCycle)

/-- The C3 scenario: both buttons released and the step gate open on every
tick, emergency stop never engaged. -/
def sweepInput : TickInput :=
  { stopBtn := false, modeBtn := false, stepDue := true }

def runC3 (n : Nat) : LoopState :=
  runFrom initState (fun _ => sweepInput) n

/-- The angle emitted on tick `n` (0-indexed) of the C3 scenario. -/
def emitAngle (n : Nat) : Int :=
  (runC3 n).ang

end Rangefinder

namespace Rangefinder

/-! ## Theorems for claims C4 and C6 -/

/-- C4 counterexample: at commanded angle 5 the code's pulse width is 555 µs
(truncating integer division), while the claimed formula
`round(500 + a*(2000/180))` gives 556 µs. -/
theorem usFromAngle_round_counterexample :
    usFromAngle 5 = 555 ∧ pulseWidthSpecRound 5 = 556 ∧
      usFromAngle 5 ≠ pulseWidthSpecRound 5 := by
  refine ⟨by decide, ?_, ?_⟩ <;>
    norm_num [pulseWidthSpecRound, round_eq, usFromAngle, arduinoMap, constrain]

/-- C4 (amended): for angles in [0,180] the pulse width is
`500 + ⌊a*2000/180⌋` (floor, i.e. C's truncating division on this
nonnegative range); it is monotone non-decreasing in the commanded angle, and
angles outside [0,180] are clamped to the nearest boundary before mapping. -/
theorem usFromAngle_floor_monotone_clamp (a : Int) :
    (0 ≤ a → a ≤ 180 → usFromAngle a = 500 + ⌊((a * 2000 : Int) : ℚ) / 180⌋) ∧
    (∀ b : Int, a ≤ b → usFromAngle a ≤ usFromAngle b) ∧
    (a < 0 → usFromAngle a = usFromAngle 0) ∧
    (180 < a → usFromAngle a = usFromAngle 180) := by
  have hfloor : ∀ n : Int, ⌊((n : Int) : ℚ) / 180⌋ = n / 180 := by
    intro n
    have := Rat.floor_intCast_div_natCast n 180
    simpa using this
  have hconstrain_mono : ∀ x y : Int, x ≤ y →
      constrain x 0 180 ≤ constrain y 0 180 := by
    intro x y hxy
    unfold constrain
    split <;> split <;> omega
  refine ⟨?_, ?_, ?_, ?_⟩
  · intro h0 h1
    have hc : constrain a 0 180 = a := by unfold constrain; split <;> omega
    rw [usFromAngle, arduinoMap, hc, hfloor]
    ring_nf
  · intro b hab
    have hc := hconstrain_mono a b hab
    unfold usFromAngle arduinoMap
    have hmul : (constrain a 0 180 - 0) * (2500 - 500) ≤
        (constrain b 0 180 - 0) * (2500 - 500) := by nlinarith
    have hdiv := Int.ediv_le_ediv (by norm_num : (0:Int) < 180 - 0) hmul
    omega
  · intro h
    have : constrain a 0 180 = constrain 0 0 180 := by
      unfold constrain; split <;> omega
    unfold usFromAngle; rw [this]
  · intro h
    have : constrain a 0 180 = constrain 180 0 180 := by
      unfold constrain; split <;> split <;> omega
    unfold usFromAngle; rw [this]

/-- C4 witness: the amended statement evaluated at angles 5 and 7. -/
theorem usFromAngle_floor_monotone_clamp_witness :
    usFromAngle 5 = 500 + ⌊((5 * 2000 : Int) : ℚ) / 180⌋ ∧
      usFromAngle 5 ≤ usFromAngle 7 ∧
      usFromAngle (-3) = usFromAngle 0 ∧ usFromAngle 200 = usFromAngle 180 := by
  refine ⟨(usFromAngle_floor_monotone_clamp 5).1 (by decide) (by decide),
    (usFromAngle_floor_monotone_clamp 5).2.1 7 (by decide),
    (usFromAngle_floor_monotone_clamp (-3)).2.2.1 (by decide),
    (usFromAngle_floor_monotone_clamp 200).2.2.2 (by decide)⟩

/-- C6: a non-timeout echo of `t` µs measures a one-way distance of
`t * 0.0343 * 0.5` cm; the linear calibration `1.049396 * measured - 0.673890`
is then applied and the result is returned in meters (the division by 100);
a timeout (echo 0) yields the `NAN` sentinel (`none`) instead. -/
theorem measureMeters_formula (t : Nat) :
    readDistanceCm t =
      (if t = 0 then none else some ((t : ℚ) * 0.0343 * 0.5)) ∧
    measureMeters t =
      (if t = 0 then none
       else some ((1.049396 * ((t : ℚ) * 0.0343 * 0.5) - 0.673890) / 100)) := by
  constructor
  · rfl
  · unfold measureMeters readDistanceCm sensorCalibration
    split <;> rfl

/-! ## Theorem for claim C5 -/

/-- The sum/count accumulator of the `scanAtAngle` loop totals exactly the
valid, strictly positive readings. -/
theorem scanFold_sum_cnt (echoes : Nat → Nat) (l : List Nat) :
    ∀ (buf : List (Option ℚ)) (s : ℚ) (c : Nat),
      (l.foldl (scanStep echoes) (buf, s, c)).2.1 =
          s + (validReadings echoes l).sum ∧
        (l.foldl (scanStep echoes) (buf, s, c)).2.2 =
          c + (validReadings echoes l).length := by
  induction l with
  | nil => intro buf s c; simp [validReadings]
  | cons i t ih =>
    intro buf s c
    rw [List.foldl_cons]
    rcases hd : measureMeters (echoes i) with _ | v
    · have hstep : scanStep echoes (buf, s, c) i =
          (buf.set i (measureMeters (echoes i)), s, c) := by
        simp [scanStep, hd]
      rw [hstep]
      obtain ⟨h1, h2⟩ := ih (buf.set i (measureMeters (echoes i))) s c
      rw [h1, h2]
      simp [validReadings, hd]
    · by_cases hv : 0 < v
      · have hstep : scanStep echoes (buf, s, c) i =
            (buf.set i (measureMeters (echoes i)), s + v, c + 1) := by
          simp [scanStep, hd, hv]
        rw [hstep]
        obtain ⟨h1, h2⟩ := ih (buf.set i (measureMeters (echoes i))) (s + v) (c + 1)
        rw [h1, h2]
        constructor
        · simp [validReadings, hd, hv]
          ring
        · simp [validReadings, hd, hv]
          omega
      · have hstep : scanStep echoes (buf, s, c) i =
            (buf.set i (measureMeters (echoes i)), s, c) := by
          simp [scanStep, hd, hv]
        rw [hstep]
        obtain ⟨h1, h2⟩ := ih (buf.set i (measureMeters (echoes i))) s c
        rw [h1, h2]
        simp [validReadings, hd, hv]

/-- C5: the sample buffer has 11 slots; each of the 10 samples is stored raw
(including the `NAN` sentinel for a timeout) in its own slot, in order, with
no retries; and the mean slot holds `sum/valid_count` over exactly the valid,
strictly positive readings when at least one exists, else the undefined
(`NAN`) sentinel. -/
theorem scanAtAngle_spec (echoes : Nat → Nat) :
    (scanAtAngle echoes).length = 11 ∧
    (scanAtAngle echoes).take 10 =
      (List.range 10).map (fun i => measureMeters (echoes i)) ∧
    (scanAtAngle echoes)[10]? =
      some (if validReadings echoes (List.range 10) = [] then none
            else some ((validReadings echoes (List.range 10)).sum /
              ((validReadings echoes (List.range 10)).length : ℚ))) := by
  obtain ⟨hs, hc⟩ :=
    scanFold_sum_cnt echoes (List.range 10) (List.replicate 11 (some 0)) 0 0
  refine ⟨rfl, rfl, ?_⟩
  have hval : (scanAtAngle echoes)[10]? =
      some (if 0 < ((List.range 10).foldl (scanStep echoes)
              (List.replicate 11 (some 0), 0, 0)).2.2 then
              some (((List.range 10).foldl (scanStep echoes)
                  (List.replicate 11 (some 0), 0, 0)).2.1 /
                ((((List.range 10).foldl (scanStep echoes)
                  (List.replicate 11 (some 0), 0, 0)).2.2 : ℚ)))
            else none) := rfl
  rw [hval, hs, hc]
  rcases eq_or_ne (validReadings echoes (List.range 10)) [] with h | h
  · simp [h]
  · simp [h, List.length_pos.mpr h]

/-! ## Theorem for claim C8 -/

theorem commaSeparated_append_cons (s t : String) (r : List String) :
    commaSeparated ((s ++ "," ++ t) :: r) = s ++ "," ++ commaSeparated (t :: r) := by
  cases r with
  | nil => rfl
  | cons y ys => simp [commaSeparated, String.append_assoc]

theorem foldl_commaSep (l : List (Option ℚ)) :
    ∀ s : String,
      l.foldl (fun acc x => acc ++ "," ++ fmtFloat2 x) s =
        commaSeparated (s :: l.map fmtFloat2) := by
  induction l with
  | nil => intro s; rfl
  | cons x xs ih =>
    intro s
    rw [List.foldl_cons, ih, List.map_cons, commaSeparated_append_cons]
    simp [commaSeparated]

theorem pad2_length : ∀ n : Nat, n < 100 → (pad2 n).length = 2 := by decide

/-- C8: the emitted line is the comma-separated list of 13 fields
`mode_id, angle, r1..r10, mean`; the mode identifier is "1" for `FULL_SWEEP`
(`currentMode = 0`) and "2" for `SPARSE_SWEEP` (`currentMode = 1`); and every
numeric distance value is formatted with exactly two digits after the decimal
point. -/
theorem sendAngleBlock_line_format (angle_deg : Int) (a : List (Option ℚ))
    (currentMode : Bool) (q : ℚ) (h : a.length = 11) :
    sendAngleBlock angle_deg a currentMode =
      commaSeparated ((if !currentMode then "1" else "2") ::
        toString angle_deg :: a.map fmtFloat2) ∧
    ((if !currentMode then "1" else "2") ::
        toString angle_deg :: a.map fmtFloat2).length = 13 ∧
    (currentMode = false → (if !currentMode then "1" else "2") = "1") ∧
    (currentMode = true → (if !currentMode then "1" else "2") = "2") ∧
    (∃ pre frac : String, fmtFloat2 (some q) = pre ++ "." ++ frac ∧
      frac.length = 2) := by
  refine ⟨?_, by simp [h], by intro hm; simp [hm], by intro hm; simp [hm], ?_⟩
  · rw [sendAngleBlock, foldl_commaSep, commaSeparated_append_cons]
    simp [commaSeparated]
  · refine ⟨(if q < 0 then "-" else "") ++
      toString ((⌊|q| * 100 + 1 / 2⌋).toNat / 100),
      pad2 ((⌊|q| * 100 + 1 / 2⌋).toNat % 100), rfl,
      pad2_length _ (Nat.mod_lt _ (by norm_num))⟩

/-- C8 witness: the line format theorem applied to a concrete all-timeout
buffer in `FULL_SWEEP` mode at angle 30. -/
theorem sendAngleBlock_line_format_witness :
    sendAngleBlock 30 (List.replicate 11 none) false =
      commaSeparated ("1" :: toString (30 : Int) ::
        (List.replicate 11 (none : Option ℚ)).map fmtFloat2) ∧
    (("1" : String) :: toString (30 : Int) ::
        (List.replicate 11 (none : Option ℚ)).map fmtFloat2).length = 13 := by
  have h := sendAngleBlock_line_format 30 (List.replicate 11 none) false
    (123 / 100) rfl
  exact ⟨h.1, h.2.1⟩

/-! ## Frame lemmas for the `loop()` state machine -/

theorem stop_checkButton_spec (s : LoopState) (b : Bool) :
    (stop_checkButton s b).emergency_stop =
        (if !s.stop_WasPressed && b then !s.emergency_stop
         else s.emergency_stop) ∧
      (stop_checkButton s b).stop_WasPressed = b ∧
      (stop_checkButton s b).currentMode = s.currentMode ∧
      (stop_checkButton s b).mode_WasPressed = s.mode_WasPressed ∧
      angleState (stop_checkButton s b) = angleState s := by
  obtain ⟨es, m, wp, mwp, a, d, r, f⟩ := s
  unfold stop_checkButton
  cases b <;> cases wp <;> simp [angleState]

theorem mode_checkButton_spec (s : LoopState) (b : Bool) :
    (mode_checkButton s b).currentMode =
        (if !s.mode_WasPressed && b then !s.currentMode else s.currentMode) ∧
      (mode_checkButton s b).mode_WasPressed = b ∧
      (mode_checkButton s b).emergency_stop = s.emergency_stop ∧
      (mode_checkButton s b).stop_WasPressed = s.stop_WasPressed ∧
      angleState (mode_checkButton s b) = angleState s := by
  obtain ⟨es, m, wp, mwp, a, d, r, f⟩ := s
  unfold mode_checkButton
  cases b <;> cases mwp <;> simp [angleState]

theorem advanceAngle_frame (s : LoopState) :
    (advanceAngle s).emergency_stop = s.emergency_stop ∧
      (advanceAngle s).currentMode = s.currentMode ∧
      (advanceAngle s).stop_WasPressed = s.stop_WasPressed ∧
      (advanceAngle s).mode_WasPressed = s.mode_WasPressed ∧
      (advanceAngle s).direction = s.direction ∧
      (advanceAngle s).repeatBoundary = s.repeatBoundary ∧
      (advanceAngle s).firstCycle = s.firstCycle :=
  ⟨rfl, rfl, rfl, rfl, rfl, rfl, rfl⟩

theorem sweepAdvance_frame (s : LoopState) :
    (sweepAdvance s).emergency_stop = s.emergency_stop ∧
      (sweepAdvance s).currentMode = s.currentMode ∧
      (sweepAdvance s).stop_WasPressed = s.stop_WasPressed ∧
      (sweepAdvance s).mode_WasPressed = s.mode_WasPressed := by
  unfold sweepAdvance
  split
  · split
    · exact ⟨rfl, rfl, rfl, rfl⟩
    · split
      · exact ⟨rfl, rfl, rfl, rfl⟩
      · exact ⟨rfl, rfl, rfl, rfl⟩
  · exact ⟨rfl, rfl, rfl, rfl⟩

theorem polled_spec (s : LoopState) (i : TickInput) :
    (polled s i).emergency_stop =
        (if !s.stop_WasPressed && i.stopBtn then !s.emergency_stop
         else s.emergency_stop) ∧
      (polled s i).currentMode =
        (if !s.mode_WasPressed && i.modeBtn then !s.currentMode
         else s.currentMode) ∧
      (polled s i).stop_WasPressed = i.stopBtn ∧
      (polled s i).mode_WasPressed = i.modeBtn ∧
      angleState (polled s i) = angleState s := by
  obtain ⟨h1, h2, h3, h4, h5⟩ := stop_checkButton_spec s i.stopBtn
  obtain ⟨g1, g2, g3, g4, g5⟩ := mode_checkButton_spec
    (stop_checkButton s i.stopBtn) i.modeBtn
  exact ⟨g3.trans h1, g1.trans (by rw [h3, h4]), g4.trans h2, g2,
    g5.trans h5⟩

theorem tickState_def (s : LoopState) (i : TickInput) :
    tickState s i =
      if (polled s i).emergency_stop then polled s i
      else if i.stepDue then sweepAdvance (polled s i) else polled s i := by
  unfold tickState
  rcases h : (polled s i).emergency_stop <;> simp [h]

theorem tickState_buttons (s : LoopState) (i : TickInput) :
    (tickState s i).emergency_stop =
        (if !s.stop_WasPressed && i.stopBtn then !s.emergency_stop
         else s.emergency_stop) ∧
      (tickState s i).currentMode =
        (if !s.mode_WasPressed && i.modeBtn then !s.currentMode
         else s.currentMode) ∧
      (tickState s i).stop_WasPressed = i.stopBtn ∧
      (tickState s i).mode_WasPressed = i.modeBtn := by
  obtain ⟨p1, p2, p3, p4, _⟩ := polled_spec s i
  obtain ⟨w1, w2, w3, w4⟩ := sweepAdvance_frame (polled s i)
  rw [tickState_def]
  split
  · exact ⟨p1, p2, p3, p4⟩
  · split
    · exact ⟨w1.trans p1, w2.trans p2, w3.trans p3, w4.trans p4⟩
    · exact ⟨p1, p2, p3, p4⟩

/-- If the emergency flag is set after a pass, that pass took the
`stop_all()` branch: no report, shutdown outputs, angle state untouched. -/
theorem tick_stopped (s : LoopState) (i : TickInput)
    (h : (tickState s i).emergency_stop = true) :
    angleState (tickState s i) = angleState s ∧
      tickOut s i = ({ report := none
                       trigWrite := some false
                       servoWrite := some false
                       ledGreen := false
                       ledRed := true } : TickOutput) := by
  obtain ⟨p1, p2, p3, p4, p5⟩ := polled_spec s i
  have hp : (polled s i).emergency_stop = true := by
    rcases hq : (polled s i).emergency_stop with _ | _
    · exfalso
      rw [tickState_def, hq] at h
      simp only [Bool.false_eq_true, if_false] at h
      rcases hd : i.stepDue <;> rw [hd] at h
      · simp only [Bool.false_eq_true, if_false] at h
        rw [hq] at h
        exact Bool.false_ne_true h
      · simp only [if_true] at h
        rw [(sweepAdvance_frame (polled s i)).1, hq] at h
        exact Bool.false_ne_true h
    · rfl
  constructor
  · rw [tickState_def, hp]
    simpa using p5
  · unfold tickOut
    rw [hp]
    rfl

theorem angleState_eq (s t : LoopState) (h : angleState s = angleState t) :
    s.ang = t.ang ∧ s.direction = t.direction ∧
      s.repeatBoundary = t.repeatBoundary ∧ s.firstCycle = t.firstCycle := by
  unfold angleState at h
  exact ⟨congrArg (fun p => p.1) h, congrArg (fun p => p.2.1) h,
    congrArg (fun p => p.2.2.1) h, congrArg (fun p => p.2.2.2) h⟩

theorem sweepAdvance_at_boundary (t : LoopState)
    (hb : t.ang = startAngle ∨ t.ang = endAngle) :
    (t.firstCycle = true →
      sweepAdvance t = advanceAngle { t with firstCycle := false }) ∧
    (t.firstCycle = false → t.repeatBoundary = false →
      sweepAdvance t = { t with repeatBoundary := true }) ∧
    (t.firstCycle = false → t.repeatBoundary = true →
      sweepAdvance t =
        advanceAngle { t with repeatBoundary := false
                              direction := -t.direction }) := by
  refine ⟨fun hf => ?_, fun hf hr => ?_, fun hf hr => ?_⟩
  · unfold sweepAdvance
    rw [if_pos hb, hf]
    simp
  · unfold sweepAdvance
    rw [if_pos hb, hf, hr]
    simp
  · unfold sweepAdvance
    rw [if_pos hb, hf, hr]
    simp

theorem advanceAngle_bounds (t : LoopState) :
    startAngle ≤ (advanceAngle t).ang ∧ (advanceAngle t).ang ≤ endAngle := by
  unfold advanceAngle startAngle endAngle
  dsimp only
  constructor <;> split <;> simp_all <;> omega

/-! ## Theorem for claim C1 -/

/-- C1: on a due, unstopped tick at a boundary angle the sketch re-samples
the boundary angle; on the first-ever boundary visit (`firstCycle`) the
direction is not reversed; on a later first visit (`repeatBoundary` clear)
the repeat flag is set and the angle does not advance; on the repeat visit
the flag is cleared and the direction reverses — `[visit, visit, reverse]`. -/
theorem boundary_three_visit_policy (s : LoopState) (i : TickInput)
    (hstop : s.emergency_stop = false) (hbtn : i.stopBtn = false)
    (hdue : i.stepDue = true)
    (hb : s.ang = startAngle ∨ s.ang = endAngle) :
    Option.map Prod.snd (tickOut s i).report = some s.ang ∧
      (s.firstCycle = true →
        (tickState s i).direction = s.direction ∧
        (tickState s i).firstCycle = false ∧
        (tickState s i).repeatBoundary = s.repeatBoundary) ∧
      (s.firstCycle = false → s.repeatBoundary = false →
        (tickState s i).repeatBoundary = true ∧
        (tickState s i).ang = s.ang ∧
        (tickState s i).direction = s.direction ∧
        (tickState s i).firstCycle = false) ∧
      (s.firstCycle = false → s.repeatBoundary = true →
        (tickState s i).repeatBoundary = false ∧
        (tickState s i).direction = -s.direction) := by
  obtain ⟨p1, p2, p3, p4, p5⟩ := polled_spec s i
  obtain ⟨pa, pd, pr, pf⟩ := angleState_eq _ _ p5
  have hpe : (polled s i).emergency_stop = false := by
    rw [p1, hbtn]
    simp [hstop]
  have hpb : (polled s i).ang = startAngle ∨ (polled s i).ang = endAngle := by
    rw [pa]
    exact hb
  have ht : tickState s i = sweepAdvance (polled s i) := by
    rw [tickState_def, hpe, hdue]
    simp
  obtain ⟨c1, c2, c3⟩ := sweepAdvance_at_boundary (polled s i) hpb
  refine ⟨?_, fun hf => ?_, fun hf hr => ?_, fun hf hr => ?_⟩
  · unfold tickOut
    rw [hpe]
    simp [reportOf, pa, hdue]
  · rw [ht, c1 (pf.trans hf)]
    obtain ⟨_, _, _, _, a5, a6, a7⟩ :=
      advanceAngle_frame { polled s i with firstCycle := false }
    exact ⟨a5.trans pd, a7, a6.trans pr⟩
  · rw [ht, c2 (pf.trans hf) (pr.trans hr)]
    exact ⟨rfl, pa, pd, pf.trans hf⟩
  · rw [ht, c3 (pf.trans hf) (pr.trans hr)]
    obtain ⟨_, _, _, _, a5, a6, a7⟩ :=
      advanceAngle_frame { polled s i with repeatBoundary := false
                                           direction := -(polled s i).direction }
    exact ⟨a6, a5.trans (by rw [pd])⟩

/-- C1 witness: the boundary policy applied at the initial state (angle 30,
first cycle) on a due tick. -/
theorem boundary_three_visit_policy_witness :
    Option.map Prod.snd (tickOut initState sweepInput).report =
        some (30 : Int) ∧
      (tickState initState sweepInput).direction = 1 ∧
      (tickState initState sweepInput).firstCycle = false := by
  have h := boundary_three_visit_policy initState sweepInput rfl rfl rfl
    (Or.inl rfl)
  exact ⟨h.1, (h.2.1 rfl).1, (h.2.1 rfl).2.1⟩

/-! ## Theorem for claim C2 -/

/-- C2: from any state, as long as the emergency flag is (and stays) true
across `n` ticks, no report is emitted on any of those ticks, the trigger and
servo outputs are forced low and the red LED is lit on every one of them, and
the angle state after the `n` ticks is exactly the angle state at engagement —
so the sweep resumes from the untouched angle state once the flag clears. -/
theorem emergencyStop_gating (s : LoopState) (ins : Nat → TickInput)
    (h0 : s.emergency_stop = true) :
    ∀ n : Nat,
      (∀ k, k < n → (runFrom s ins (k + 1)).emergency_stop = true) →
      (∀ k, k < n →
          (outAt s ins k).report = none ∧
          (outAt s ins k).trigWrite = some false ∧
          (outAt s ins k).servoWrite = some false ∧
          (outAt s ins k).ledGreen = false ∧
          (outAt s ins k).ledRed = true) ∧
        angleState (runFrom s ins n) = angleState s := by
  intro n
  induction n with
  | zero => exact fun _ => ⟨fun k hk => absurd hk (Nat.not_lt_zero k), rfl⟩
  | succ n ih =>
    intro hold
    obtain ⟨ihOut, ihAngle⟩ :=
      ih (fun k hk => hold k (Nat.lt_succ_of_lt hk))
    have hn : (tickState (runFrom s ins n) (ins n)).emergency_stop = true :=
      hold n (Nat.lt_succ_self n)
    obtain ⟨hA, hO⟩ := tick_stopped (runFrom s ins n) (ins n) hn
    refine ⟨fun k hk => ?_, hA.trans ihAngle⟩
    rcases Nat.lt_succ_iff_lt_or_eq.mp hk with hlt | heq
    · exact ihOut k hlt
    · subst heq
      unfold outAt
      rw [hO]
      exact ⟨rfl, rfl, rfl, rfl, rfl⟩

/-- The initial state with the emergency flag engaged, for the stop-gating
witnesses. -/
def stoppedInit : LoopState :=
  { initState with emergency_stop := true }

/-- C2 witness: with the stop flag engaged and held for three ticks, tick 1
emits nothing and the angle state after three ticks is untouched. -/
theorem emergencyStop_gating_witness :
    (outAt stoppedInit (fun _ => sweepInput) 1).report = none ∧
      angleState (runFrom stoppedInit (fun _ => sweepInput) 3) =
        angleState stoppedInit := by
  have h := emergencyStop_gating stoppedInit (fun _ => sweepInput) rfl 3
    (by decide)
  exact ⟨(h.1 1 (by decide)).1, h.2⟩

/-! ## Theorem for claim C7 -/

/-- C7: each pass polls both buttons; a flag toggles exactly on a LOW→HIGH
edge (`!wasPressed && HIGH`), the latch records the sampled level, and while
the latch is set a held-HIGH input cannot toggle the flag again — it must
return LOW (clearing the latch) first. -/
theorem button_edge_debounce (s : LoopState) (i : TickInput) :
    (tickState s i).emergency_stop =
        (if !s.stop_WasPressed && i.stopBtn then !s.emergency_stop
         else s.emergency_stop) ∧
      (tickState s i).currentMode =
        (if !s.mode_WasPressed && i.modeBtn then !s.currentMode
         else s.currentMode) ∧
      (tickState s i).stop_WasPressed = i.stopBtn ∧
      (tickState s i).mode_WasPressed = i.modeBtn ∧
      (s.stop_WasPressed = true →
        (tickState s i).emergency_stop = s.emergency_stop) ∧
      (s.mode_WasPressed = true →
        (tickState s i).currentMode = s.currentMode) := by
  obtain ⟨b1, b2, b3, b4⟩ := tickState_buttons s i
  refine ⟨b1, b2, b3, b4, fun hw => ?_, fun hw => ?_⟩
  · rw [b1, hw]
    simp
  · rw [b2, hw]
    simp

/-- C7 witness: pressing both buttons from the released initial state toggles
both flags and sets both latches. -/
theorem button_edge_debounce_witness :
    (tickState initState ⟨true, true, false⟩).emergency_stop = true ∧
      (tickState initState ⟨true, true, false⟩).currentMode = true ∧
      (tickState initState ⟨true, true, false⟩).stop_WasPressed = true := by
  have h := button_edge_debounce initState ⟨true, true, false⟩
  exact ⟨h.1, h.2.1, h.2.2.1⟩

/-! ## Theorem for claim C9 -/

theorem tickState_inv (s : LoopState) (i : TickInput)
    (h1 : startAngle ≤ s.ang) (h2 : s.ang ≤ endAngle)
    (h3 : s.direction = 1 ∨ s.direction = -1) :
    startAngle ≤ (tickState s i).ang ∧ (tickState s i).ang ≤ endAngle ∧
      ((tickState s i).direction = 1 ∨ (tickState s i).direction = -1) := by
  obtain ⟨pa, pd, pr, pf⟩ := angleState_eq _ _ (polled_spec s i).2.2.2.2
  have hpd : (polled s i).direction = 1 ∨ (polled s i).direction = -1 := by
    rw [pd]
    exact h3
  rw [tickState_def]
  split
  · rw [pa, pd]
    exact ⟨h1, h2, h3⟩
  · split
    · -- sweepAdvance branch
      unfold sweepAdvance
      split
      · split
        · obtain ⟨hb1, hb2⟩ :=
            advanceAngle_bounds { polled s i with firstCycle := false }
          obtain ⟨_, _, _, _, a5, _, _⟩ :=
            advanceAngle_frame { polled s i with firstCycle := false }
          exact ⟨hb1, hb2, a5 ▸ hpd⟩
        · split
          · rw [pa, pd]
            exact ⟨h1, h2, h3⟩
          · obtain ⟨hb1, hb2⟩ := advanceAngle_bounds
              { polled s i with repeatBoundary := false
                                direction := -(polled s i).direction }
            obtain ⟨_, _, _, _, a5, _, _⟩ := advanceAngle_frame
              { polled s i with repeatBoundary := false
                                direction := -(polled s i).direction }
            refine ⟨hb1, hb2, ?_⟩
            rw [a5]
            rcases hpd with hd | hd <;> rw [hd] <;> simp
      · obtain ⟨hb1, hb2⟩ := advanceAngle_bounds (polled s i)
        obtain ⟨_, _, _, _, a5, _, _⟩ := advanceAngle_frame (polled s i)
        exact ⟨hb1, hb2, a5 ▸ hpd⟩
    · rw [pa, pd]
      exact ⟨h1, h2, h3⟩

/-- C9: in every state reachable from the initial state — whatever the button
presses, mode switches (step size 10 or 20) and step gating — the current
angle stays within `[startAngle, endAngle]` (the advance is clamped into the
range) and the direction is `+1` or `-1`. -/
theorem current_angle_invariant (ins : Nat → TickInput) (n : Nat) :
    startAngle ≤ (runFrom initState ins n).ang ∧
      (runFrom initState ins n).ang ≤ endAngle ∧
      ((runFrom initState ins n).direction = 1 ∨
        (runFrom initState ins n).direction = -1) := by
  induction n with
  | zero =>
    exact ⟨(by decide : startAngle ≤ initState.ang),
      (by decide : initState.ang ≤ endAngle), Or.inl rfl⟩
  | succ n ih => exact tickState_inv _ (ins n) ih.1 ih.2.1 ih.2.2

/-! ## Theorem for claim C10 -/

/-- C10: while the emergency flag is (and stays) engaged across a tick, the
buttons are still polled: a rising edge of the mode button still toggles the
mode (and hence the step size), while the whole angle state is untouched. -/
theorem stopped_only_mode_changes (s : LoopState) (i : TickInput)
    (h0 : s.emergency_stop = true)
    (h : (tickState s i).emergency_stop = true) :
    angleState (tickState s i) = angleState s ∧
      (tickState s i).currentMode =
        (if !s.mode_WasPressed && i.modeBtn then !s.currentMode
         else s.currentMode) ∧
      incrementAngle (tickState s i).currentMode =
        (if !s.mode_WasPressed && i.modeBtn then
          incrementAngle (!s.currentMode)
         else incrementAngle s.currentMode) := by
  obtain ⟨hA, _⟩ := tick_stopped s i h
  obtain ⟨_, b2, _, _⟩ := tickState_buttons s i
  refine ⟨hA, b2, ?_⟩
  rw [b2]
  split <;> rfl

/-- C10 witness: with the stop engaged, a mode-button press toggles the mode
to `SPARSE_SWEEP` (step 20) while the angle state is untouched. -/
theorem stopped_only_mode_changes_witness :
    angleState (tickState stoppedInit ⟨false, true, true⟩) =
        angleState stoppedInit ∧
      (tickState stoppedInit ⟨false, true, true⟩).currentMode = true ∧
      incrementAngle (tickState stoppedInit ⟨false, true, true⟩).currentMode =
        20 := by
  have h := stopped_only_mode_changes stoppedInit ⟨false, true, true⟩ rfl
    (by decide)
  exact ⟨h.1, h.2.1, h.2.2⟩

/-! ## Theorem for claim C3 -/

theorem runC3_flags (n : Nat) :
    (runC3 n).emergency_stop = false ∧ (runC3 n).currentMode = false := by
  induction n with
  | zero => exact ⟨rfl, rfl⟩
  | succ n ih =>
    obtain ⟨b1, b2, _, _⟩ := tickState_buttons (runC3 n) sweepInput
    have he : runC3 (n + 1) = tickState (runC3 n) sweepInput := rfl
    rw [he, b1, b2]
    simp [sweepInput, ih.1, ih.2]

theorem runC3_report (n : Nat) :
    (outAt initState (fun _ => sweepInput) n).report = some (1, emitAngle n) := by
  obtain ⟨h1, h2⟩ := runC3_flags n
  obtain ⟨p1, p2, _, _, p5⟩ := polled_spec (runC3 n) sweepInput
  have hpe : (polled (runC3 n) sweepInput).emergency_stop = false := by
    rw [p1]
    simp [sweepInput, h1]
  have hpm : (polled (runC3 n) sweepInput).currentMode = false := by
    rw [p2]
    simp [sweepInput, h2]
  have hpa : (polled (runC3 n) sweepInput).ang = (runC3 n).ang :=
    (angleState_eq _ _ p5).1
  show (tickOut (runC3 n) sweepInput).report = some (1, emitAngle n)
  unfold tickOut
  rw [hpe]
  simp [reportOf, hpm, hpa, emitAngle, show sweepInput.stepDue = true from rfl]

set_option maxRecDepth 20000 in
theorem runC3_period_base : runC3 27 = runC3 1 := by decide

set_option maxRecDepth 20000 in
theorem runC3_period (n : Nat) : runC3 (n + 27) = runC3 (n + 1) := by
  induction n with
  | zero => exact runC3_period_base
  | succ n ih =>
    show tickState (runC3 (n + 27)) sweepInput =
      tickState (runC3 (n + 1)) sweepInput
    rw [ih]

set_option maxRecDepth 20000 in
theorem emitAngle_period (n : Nat) : emitAngle (n + 26) = emitAngle n := by
  cases n with
  | zero =>
    show (runC3 26).ang = (runC3 0).ang
    decide
  | succ m =>
    show (runC3 (m + 27)).ang = (runC3 (m + 1)).ang
    rw [runC3_period m]

set_option maxRecDepth 20000 in
/-- C3: with both buttons released, the gate open every tick and the stop
never engaged (the `sweepInput` scenario, `FULL_SWEEP`, step 10), every tick
emits a mode-1 report with the current angle; the emitted angle sequence is
periodic with period 26; the upward half-sweep visits exactly the 13 values
30,40,…,150 and the downward half-sweep the same 13 values in reverse; and at
each turnaround the boundary angle (150, then 30) is emitted twice
consecutively before the direction reverses. -/
theorem full_sweep_trace_period :
    (∀ n, (outAt initState (fun _ => sweepInput) n).report =
        some (1, emitAngle n)) ∧
      (∀ n, emitAngle (n + 26) = emitAngle n) ∧
      (List.range 13).map emitAngle =
        [30, 40, 50, 60, 70, 80, 90, 100, 110, 120, 130, 140, 150] ∧
      (List.range 13).map (fun j => emitAngle (13 + j)) =
        [150, 140, 130, 120, 110, 100, 90, 80, 70, 60, 50, 40, 30] ∧
      emitAngle 12 = 150 ∧ emitAngle 13 = 150 ∧
      (runC3 13).direction = 1 ∧ (runC3 14).direction = -1 ∧
      emitAngle 25 = 30 ∧ emitAngle 26 = 30 ∧
      (runC3 26).direction = -1 ∧ (runC3 27).direction = 1 :=
  ⟨runC3_report, emitAngle_period, by decide, by decide, by decide, by decide,
    by decide, by decide, by decide, by decide, by decide, by decide⟩

end Rangefinder
